/-
  Verification of the AiCommitGenerator extension against its specification.

  The definitions below are a shallow embedding of the TypeScript source
  (src/extension.ts, src/githubAuth.ts).  Network calls and the VS Code API
  are modelled as oracle inputs; pure post-processing (regex cleanup, JSON
  extraction and parsing, validation, the hallucination guard) is translated
  function by function.  JavaScript `JSON.parse` numbers are embedded as
  unnormalised decimal pairs (mantissa, power of ten); JS string truthiness
  is modelled explicitly.
-/
import Mathlib

/- ------------------------------------------------------------------ -/
/- Basic character/string helpers shared by the embedded functions.    -/
/- ------------------------------------------------------------------ -/

/-- The backquote character (code point 96), used by markdown fences. -/
def tick : Char := Char.ofNat 96

/-- JS `String.prototype.trim`: drop whitespace from both ends. -/
def trimChars (cs : List Char) : List Char :=
  ((cs.dropWhile Char.isWhitespace).reverse.dropWhile Char.isWhitespace).reverse

/-- Numeric value of a list of decimal digit characters, most significant first. -/
def digitsVal (ds : List Char) : Nat :=
  ds.foldl (fun n c => n * 10 + (c.toNat - 48)) 0

/-- JS `parseInt(s, 10)` applied to a string that contains only decimal
digits: `NaN` (here `none`) on the empty string, otherwise the value. -/
def parseIntBase10 (ds : List Char) : Option Nat :=
  match ds with
  | [] => none
  | _ :: _ => some (digitsVal ds)

/-- JS truthiness of a `string | undefined` value: `undefined` and the
empty string are falsy. -/
def jsTruthyStr : Option String → Bool
  | none => false
  | some s => s ≠ ""

/- ------------------------------------------------------------------ -/
/- Data model.                                                         -/
/- ------------------------------------------------------------------ -/

/-- `GitHubIssue` from src/extension.ts. -/
structure GitHubIssue where
  number : Nat
  title : String
  body : String
deriving Repr, DecidableEq

/-- A JSON number as produced by decimal-literal parsing: the value is
`mantissa * 10 ^ exp10`.  Kept unnormalised so the parser is pure integer
arithmetic. -/
structure JNum where
  mantissa : Int
  exp10 : Int
deriving Repr, DecidableEq

/-- Rational value denoted by a `JNum`. -/
def JNum.toRat (n : JNum) : Rat :=
  if 0 ≤ n.exp10 then (n.mantissa : Rat) * 10 ^ n.exp10.toNat
  else (n.mantissa : Rat) / 10 ^ (-n.exp10).toNat

/-- JSON values, the result type of the embedded `JSON.parse`. -/
inductive Json where
  | null : Json
  | bool (b : Bool) : Json
  | num (n : JNum) : Json
  | str (s : String) : Json
  | arr (elems : List Json) : Json
  | obj (fields : List (String × Json)) : Json
deriving Repr

/-- JS property access `v.key` on a parsed JSON value: defined for objects
(with the last duplicate key winning, as in `JSON.parse`), `undefined`
(`none`) otherwise. -/
def Json.getField : Json → String → Option Json
  | .obj fields, key => (fields.reverse.find? (fun p => p.1 == key)).map (fun p => p.2)
  | _, _ => none

/-- JS truthiness of a parsed JSON value (`!v` is `true` exactly when this
is `false`): `null`, `false`, `0` and `""` are falsy; arrays and objects
are always truthy. -/
def Json.truthy : Json → Bool
  | .null => false
  | .bool b => b
  | .num n => n.mantissa != 0
  | .str s => s ≠ ""
  | .arr _ => true
  | .obj _ => true

/-- `IssueClassification` from src/extension.ts.  At runtime the fields
hold whatever the parsed JSON supplied, so `type` and the label elements
are embedded as JSON values. -/
structure IssueClassification where
  type : Json
  labels : List Json
  confidence : JNum
deriving Repr

/-- The parse-fallback classification `{type: 'chore', labels: ['chore'],
confidence: 0.0}` from `classifyIssueFromDiff`. -/
def fallbackClassification : IssueClassification :=
  { type := Json.str "chore", labels := [Json.str "chore"],
    confidence := { mantissa := 0, exp10 := 0 } }

/- ------------------------------------------------------------------ -/
/- Embedded JSON.parse (strict JSON grammar, fuel-based recursion).    -/
/- ------------------------------------------------------------------ -/

/-- Skip JSON insignificant whitespace. -/
def skipWs : List Char → List Char
  | c :: cs => if c = ' ' ∨ c = '\t' ∨ c = '\n' ∨ c = '\r' then skipWs cs else c :: cs
  | [] => []

/-- Value of a hexadecimal digit, if any. -/
def hexVal? (c : Char) : Option Nat :=
  if '0' ≤ c ∧ c ≤ '9' then some (c.toNat - 48)
  else if 'a' ≤ c ∧ c ≤ 'f' then some (c.toNat - 87)
  else if 'A' ≤ c ∧ c ≤ 'F' then some (c.toNat - 55)
  else none

/-- Parse the body of a JSON string literal (after the opening quote),
handling escapes; returns the string and the input after the closing
quote. -/
def parseJStringAux : Nat → List Char → List Char → Option (String × List Char)
  | 0, _, _ => none
  | _ + 1, _, [] => none
  | fuel + 1, acc, c :: cs =>
    if c = '"' then some (String.mk acc.reverse, cs)
    else if c = '\\' then
      match cs with
      | [] => none
      | e :: cs2 =>
        if e = '"' then parseJStringAux fuel ('"' :: acc) cs2
        else if e = '\\' then parseJStringAux fuel ('\\' :: acc) cs2
        else if e = '/' then parseJStringAux fuel ('/' :: acc) cs2
        else if e = 'b' then parseJStringAux fuel (Char.ofNat 8 :: acc) cs2
        else if e = 'f' then parseJStringAux fuel (Char.ofNat 12 :: acc) cs2
        else if e = 'n' then parseJStringAux fuel ('\n' :: acc) cs2
        else if e = 'r' then parseJStringAux fuel ('\r' :: acc) cs2
        else if e = 't' then parseJStringAux fuel ('\t' :: acc) cs2
        else if e = 'u' then
          match cs2 with
          | h1 :: h2 :: h3 :: h4 :: cs3 =>
            match hexVal? h1, hexVal? h2, hexVal? h3, hexVal? h4 with
            | some a, some b, some c3, some d =>
              parseJStringAux fuel (Char.ofNat (((a * 16 + b) * 16 + c3) * 16 + d) :: acc) cs3
            | _, _, _, _ => none
          | _ => none
        else none
    else if c.toNat < 32 then none
    else parseJStringAux fuel (c :: acc) cs

/-- Parse the fractional part of a JSON number ("." digits, or nothing). -/
def parseJFrac (cs : List Char) : Option (List Char × List Char) :=
  match cs with
  | '.' :: r =>
    let fs := r.takeWhile Char.isDigit
    if fs.isEmpty then none else some (fs, r.dropWhile Char.isDigit)
  | _ => some ([], cs)

/-- Parse the exponent part of a JSON number ("e"/"E" sign digits, or
nothing); returns the signed exponent. -/
def parseJExp (cs : List Char) : Option (Int × List Char) :=
  match cs with
  | c :: r =>
    if c = 'e' ∨ c = 'E' then
      let (sgn, r2) : Int × List Char :=
        match r with
        | '+' :: rr => (1, rr)
        | '-' :: rr => (-1, rr)
        | _ => (1, r)
      let eds := r2.takeWhile Char.isDigit
      if eds.isEmpty then none
      else some (sgn * (digitsVal eds : Int), r2.dropWhile Char.isDigit)
    else some (0, cs)
  | [] => some (0, cs)

/-- Parse a JSON number literal at the head of the input. -/
def parseJNumber (cs : List Char) : Option (JNum × List Char) :=
  let (neg, cs1) : Bool × List Char :=
    match cs with
    | '-' :: r => (true, r)
    | _ => (false, cs)
  let intDs := cs1.takeWhile Char.isDigit
  let cs2 := cs1.dropWhile Char.isDigit
  if intDs.isEmpty then none
  else if 1 < intDs.length ∧ intDs.head? = some '0' then none
  else
    match parseJFrac cs2 with
    | none => none
    | some (fracDs, cs3) =>
      match parseJExp cs3 with
      | none => none
      | some (expVal, cs4) =>
        let m : Int := (digitsVal (intDs ++ fracDs) : Int)
        let m := if neg then -m else m
        some ({ mantissa := m, exp10 := expVal - fracDs.length }, cs4)

/-- What the recursive JSON parser is currently parsing: a single value,
the items of a non-empty array (comma-separated, up to the closing
bracket), or the members of a non-empty object (up to the closing
brace).  A single mode-indexed function keeps the recursion structural on
the fuel, so the kernel can evaluate it. -/
inductive JMode where
  | value
  | arrItems
  | objItems
deriving Repr, DecidableEq

/-- Intermediate results of the mode-indexed parser. -/
inductive JRes where
  | val (v : Json)
  | items (vs : List Json)
  | fields (fs : List (String × Json))
deriving Repr

/-- The recursive core of the embedded `JSON.parse` (strict JSON
grammar), indexed by the parsing mode. -/
def parseJ : Nat → JMode → List Char → Option (JRes × List Char)
  | 0, _, _ => none
  | fuel + 1, JMode.value, cs =>
    (match skipWs cs with
     | 'n' :: 'u' :: 'l' :: 'l' :: r => some (JRes.val Json.null, r)
     | 't' :: 'r' :: 'u' :: 'e' :: r => some (JRes.val (Json.bool true), r)
     | 'f' :: 'a' :: 'l' :: 's' :: 'e' :: r => some (JRes.val (Json.bool false), r)
     | '"' :: r =>
       (match parseJStringAux (r.length + 1) [] r with
        | some (s, r2) => some (JRes.val (Json.str s), r2)
        | none => none)
     | '[' :: r =>
       (match skipWs r with
        | ']' :: r2 => some (JRes.val (Json.arr []), r2)
        | _ =>
          match parseJ fuel JMode.arrItems (skipWs r) with
          | some (JRes.items xs, r2) => some (JRes.val (Json.arr xs), r2)
          | _ => none)
     | '{' :: r =>
       (match skipWs r with
        | '}' :: r2 => some (JRes.val (Json.obj []), r2)
        | _ =>
          match parseJ fuel JMode.objItems (skipWs r) with
          | some (JRes.fields fs, r2) => some (JRes.val (Json.obj fs), r2)
          | _ => none)
     | c :: r =>
       if c = '-' ∨ c.isDigit then
         match parseJNumber (c :: r) with
         | some (q, r2) => some (JRes.val (Json.num q), r2)
         | none => none
       else none
     | [] => none)
  | fuel + 1, JMode.arrItems, cs =>
    (match parseJ fuel JMode.value cs with
     | some (JRes.val v, r) =>
       (match skipWs r with
        | ',' :: r2 =>
          (match parseJ fuel JMode.arrItems r2 with
           | some (JRes.items vs, r3) => some (JRes.items (v :: vs), r3)
           | _ => none)
        | ']' :: r2 => some (JRes.items [v], r2)
        | _ => none)
     | _ => none)
  | fuel + 1, JMode.objItems, cs =>
    (match skipWs cs with
     | '"' :: r =>
       (match parseJStringAux (r.length + 1) [] r with
        | none => none
        | some (k, r2) =>
          match skipWs r2 with
          | ':' :: r3 =>
            (match parseJ fuel JMode.value r3 with
             | some (JRes.val v, r4) =>
               (match skipWs r4 with
                | ',' :: r5 =>
                  (match parseJ fuel JMode.objItems r5 with
                   | some (JRes.fields fs, r6) => some (JRes.fields ((k, v) :: fs), r6)
                   | _ => none)
                | '}' :: r5 => some (JRes.fields [(k, v)], r5)
                | _ => none)
             | _ => none)
          | _ => none)
     | _ => none)

/-- Embedded `JSON.parse`: the whole input (modulo surrounding whitespace)
must be one JSON value; `none` models the `SyntaxError` throw. -/
def jsonParse (s : String) : Option Json :=
  match parseJ (2 * s.length + 2) JMode.value s.data with
  | some (JRes.val v, r) => if skipWs r = [] then some v else none
  | _ => none

/- ------------------------------------------------------------------ -/
/- extractJson and the classification parse stage (extension.ts).      -/
/- ------------------------------------------------------------------ -/

/-- The fence-stripping replace from `extractJson`:
`text.replace(/```json|```/gi, '')`.  Scans left to right; at each
position the seven-character case-insensitive fence-with-language marker
is tried before the bare three-backquote fence. -/
def stripFencesAux : Nat → List Char → List Char
  | 0, cs => cs
  | _ + 1, [] => []
  | fuel + 1, c :: rest =>
    if c = tick ∧ rest.take 2 = [tick, tick] then
      if ((rest.drop 2).take 4).map Char.toLower = ['j', 's', 'o', 'n'] then
        stripFencesAux fuel ((rest.drop 2).drop 4)
      else
        stripFencesAux fuel (rest.drop 2)
    else c :: stripFencesAux fuel rest

/-- Fence stripping with enough fuel for the whole input (each step of
the scan consumes at least one character). -/
def stripFences (cs : List Char) : List Char :=
  stripFencesAux cs.length cs

/-- `extractJson` from extension.ts: strip fence markers, trim, then apply
the greedy regex `/\x7b[\s\S]*\x7d/` — a match runs from the first opening
brace to the last closing brace after it; `none` models the throw when no
match exists. -/
def extractJson (text : String) : Option String :=
  let s := trimChars (stripFences text.data)
  let afterFirst := s.dropWhile (fun c => c ≠ '{')
  let upToLast := (afterFirst.reverse.dropWhile (fun c => c ≠ '}')).reverse
  if upToLast.isEmpty then none else some (String.mk upToLast)

/-- Helper for the shape check `Array.isArray(parsed.labels)`: the element
list when the (optional) field value is a JSON array. -/
def labelsArr? : Option Json → Option (List Json)
  | some (Json.arr ls) => some ls
  | _ => none

/-- Helper for `typeof parsed.confidence === 'number'`: the number when
the (optional) field value is a JSON number. -/
def numField? : Option Json → Option JNum
  | some (Json.num n) => some n
  | _ => none

/-- The confidence defaulting from `classifyIssueFromDiff`: the
backend-supplied number when present, `0.5` otherwise. -/
def confidenceOf (parsed : Json) : JNum :=
  (numField? (parsed.getField "confidence")).getD { mantissa := 5, exp10 := -1 }

/-- The validation-and-build step of `classifyIssueFromDiff` applied to a
successfully parsed JSON value: throw (handled by the caller as the
fallback) unless `parsed.type` is truthy and `parsed.labels` is an array. -/
def classifyFromParsed (parsed : Json) : IssueClassification :=
  match labelsArr? (parsed.getField "labels") with
  | none => fallbackClassification
  | some ls =>
    match parsed.getField "type" with
    | none => fallbackClassification
    | some ty =>
      if ty.truthy then
        { type := ty, labels := ls, confidence := confidenceOf parsed }
      else fallbackClassification

/-- The try/catch block of `classifyIssueFromDiff` on the backend text:
extraction, `JSON.parse` and validation, with every failure caught and
converted to the fallback classification. -/
def classifyParse (text : String) : IssueClassification :=
  match extractJson text with
  | none => fallbackClassification
  | some j =>
    match jsonParse j with
    | none => fallbackClassification
    | some parsed => classifyFromParsed parsed

/-- The same stage when the backend text may be absent (the OpenAI branch
assigns `data.choices?.[0]?.message?.content` without checking it): an
absent text makes `extractJson` throw a TypeError, which the same catch
turns into the fallback. -/
def classifyParseOpt : Option String → IssueClassification
  | none => fallbackClassification
  | some t => classifyParse t

/- ------------------------------------------------------------------ -/
/- cleanCommitMessage (extension.ts lines 411-416).                    -/
/- ------------------------------------------------------------------ -/

/-- `cleanCommitMessage` from extension.ts:
`msg.replace(/^```[\s\S]*?\n/, '').replace(/```$/, '').trim()`.
The first (lazy) replace removes a leading fence only up to and including
the first newline; the second removes a trailing bare fence at the very
end of the string; then the result is trimmed. -/
def cleanCommitMessage (msg : String) : String :=
  let cs := msg.data
  let s1 :=
    if cs.take 3 = [tick, tick, tick] ∧ '\n' ∈ cs then
      (cs.dropWhile (fun c => c ≠ '\n')).drop 1
    else cs
  let s2 :=
    if s1.reverse.take 3 = [tick, tick, tick] then
      (s1.reverse.drop 3).reverse
    else s1
  String.mk (trimChars s2)

/- ------------------------------------------------------------------ -/
/- findRelevantIssue post-processing (extension.ts lines 1053-1066).   -/
/- ------------------------------------------------------------------ -/

/-- The response post-processing of `findRelevantIssue`: the literal
no-match token (case-insensitively) yields `null`; otherwise all
non-digit characters are deleted, the remainder is parsed with
`parseInt(..., 10)`, and the resulting number is accepted only when it is
the number of one of the candidate issues. -/
def findRelevantIssuePost (issues : List GitHubIssue) (responseText : String) : Option Nat :=
  if responseText.data.map Char.toUpper = ['N', 'O', 'N', 'E'] then none
  else
    match parseIntBase10 (responseText.data.filter Char.isDigit) with
    | none => none
    | some n => if issues.any (fun i => i.number == n) then some n else none

/- ------------------------------------------------------------------ -/
/- Text Generation Gateway runs (cancellation and call accounting).    -/
/- ------------------------------------------------------------------ -/

/-- Errors thrown by the Gateway functions. -/
inductive GenError where
  | configError (msg : String)
  | cancelled
  | providerError (status : Nat) (body : String)
  | providerResponseError (msg : String)
deriving Repr, DecidableEq

/-- The user-visible message of a thrown error (`err.message`). -/
def GenError.message : GenError → String
  | .configError m => m
  | .cancelled => "Cancelled"
  | .providerError st body => "OpenAI API error (" ++ toString st ++ "): " ++ body
  | .providerResponseError m => m

/-- Oracle for one backend interaction: what the network would return for
whichever backend is selected.  The prompt text does not influence these
models, so it is not recorded. -/
structure Gateway where
  geminiText : String
  openaiOk : Bool
  openaiStatus : Nat
  openaiErrBody : String
  openaiContent : Option String
  openaiJsonParses : Bool
deriving Repr

/-- `generateCommitMessage` from extension.ts (the variant taking a diff,
an issue list and a cancellation token), reduced to its observable result:
the returned or thrown value, and the number of backend calls issued.
The issue list only shapes the prompt, so it does not appear.  The
cancellation token is embedded as the (monotone) flag `cancelled`. -/
def generateCommitMessageRun (provider : String) (apiKey : Option String)
    (gw : Gateway) (cancelled : Bool) : Except GenError String × Nat :=
  if ¬ jsTruthyStr apiKey then (Except.error (GenError.configError "API key not configured"), 0)
  else if provider = "gemini" then
    if cancelled then (Except.error GenError.cancelled, 0)
    else (Except.ok (cleanCommitMessage gw.geminiText), 1)
  else if provider = "openai" then
    if cancelled then (Except.error GenError.cancelled, 0)
    else if ¬ gw.openaiOk then
      (Except.error (GenError.providerError gw.openaiStatus gw.openaiErrBody), 1)
    else if cancelled then (Except.error GenError.cancelled, 1)
    else
      match gw.openaiContent with
      | none => (Except.error (GenError.providerResponseError "Invalid OpenAI response"), 1)
      | some c =>
        if c = "" then (Except.error (GenError.providerResponseError "Invalid OpenAI response"), 1)
        else (Except.ok (cleanCommitMessage c), 1)
  else (Except.error (GenError.configError ("Unsupported provider: " ++ provider)), 0)

/-- `findRelevantIssue` from extension.ts, reduced the same way: backend
interaction, then the guarded post-processing of the trimmed response. -/
def findRelevantIssueRun (provider : String) (apiKey : Option String)
    (gw : Gateway) (cancelled : Bool) (issues : List GitHubIssue) :
    Except GenError (Option Nat) × Nat :=
  if ¬ jsTruthyStr apiKey then (Except.error (GenError.configError "API key not configured"), 0)
  else if provider = "gemini" then
    if cancelled then (Except.error GenError.cancelled, 0)
    else
      (Except.ok (findRelevantIssuePost issues (String.mk (trimChars gw.geminiText.data))), 1)
  else if provider = "openai" then
    if cancelled then (Except.error GenError.cancelled, 0)
    else if ¬ gw.openaiOk then
      (Except.error (GenError.providerError gw.openaiStatus gw.openaiErrBody), 1)
    else if cancelled then (Except.error GenError.cancelled, 1)
    else
      match gw.openaiContent with
      | none => (Except.error (GenError.providerResponseError "Invalid OpenAI response"), 1)
      | some c =>
        if c = "" then (Except.error (GenError.providerResponseError "Invalid OpenAI response"), 1)
        else (Except.ok (findRelevantIssuePost issues (String.mk (trimChars c.data))), 1)
  else (Except.error (GenError.configError ("Unsupported provider: " ++ provider)), 0)

/-- `classifyIssueFromDiff` from extension.ts, reduced the same way.  The
source accepts a cancellation token but never consults it, and the
non-Gemini branch issues the OpenAI request for every other provider
value without a status check; a body that is not JSON makes
`response.json()` throw outside the try/catch. -/
def classifyIssueFromDiffRun (provider : String) (apiKey : Option String)
    (gw : Gateway) (cancelled : Bool) : Except GenError IssueClassification × Nat :=
  if ¬ jsTruthyStr apiKey then (Except.error (GenError.configError "API key not configured"), 0)
  else if provider = "gemini" then
    (Except.ok (classifyParse gw.geminiText), 1)
  else
    if ¬ gw.openaiJsonParses then
      (Except.error (GenError.providerResponseError "Unexpected token in JSON"), 1)
    else (Except.ok (classifyParseOpt gw.openaiContent), 1)

/- ------------------------------------------------------------------ -/
/- Issue Repository Client (fetchGitHubIssues, resolveGitHubToken).    -/
/- ------------------------------------------------------------------ -/

/-- One entry of the GitHub issues listing response, as consumed by
`fetchGitHubIssues`: entries carrying a `pull_request` marker are
pull-request-shaped. -/
structure RawIssue where
  number : Nat
  title : String
  body : Option String
  pull_request : Bool
deriving Repr, DecidableEq

/-- Oracle for the issue-listing HTTP interaction: a transport failure
(the fetch rejects), or a response with a success flag and a body (`none`
when the body is not a JSON array, making `response.json()`/`filter`
throw inside the try). -/
inductive FetchOutcome where
  | transportError
  | httpResponse (ok : Bool) (status : Nat) (body : Option (List RawIssue))
deriving Repr, DecidableEq

/-- `fetchGitHubIssues` from extension.ts: non-success statuses and
transport failures return the empty list (after a logged warning), and
pull-request-shaped entries are filtered out of a successful listing. -/
def fetchGitHubIssues : FetchOutcome → List GitHubIssue
  | FetchOutcome.transportError => []
  | FetchOutcome.httpResponse ok _ body =>
    if ¬ ok then []
    else
      match body with
      | none => []
      | some issues =>
        (issues.filter (fun i => !i.pull_request)).map
          (fun i => { number := i.number, title := i.title, body := i.body.getD "" })

/-- `getGitHubAccessToken` from githubAuth.ts.  `existingSession` is the
token of an already-established VS Code GitHub session, if any;
`interactiveResult` is what an interactive sign-in would produce.  The
second component records whether the interactive sign-in UI was
triggered. -/
def getGitHubAccessToken (createIfNone : Bool)
    (existingSession interactiveResult : Option String) : Option String × Bool :=
  match existingSession with
  | some tok => (some tok, false)
  | none =>
    if createIfNone then (interactiveResult, true) else (none, false)

/-- `resolveGitHubToken` from extension.ts: first an existing session
requested without prompting (`getGitHubAccessToken(false)`), then the
statically configured `issueTrackerToken`; `undefined` when neither
yields a (truthy) token. -/
def resolveGitHubToken (existingSession interactiveResult configToken : Option String) :
    Option String × Bool :=
  let r := getGitHubAccessToken false existingSession interactiveResult
  if jsTruthyStr r.1 then r else (configToken, r.2)

/- ------------------------------------------------------------------ -/
/- The generateCommitMessage command run (extension.ts lines 707-893).  -/
/- ------------------------------------------------------------------ -/

/-- Outward-facing calls issued during one command run. -/
inductive ExtCall where
  | backendCall
  | repoListCall
  | repoCreateCall
deriving Repr, DecidableEq

/-- Terminal outcome of one command run.  `noChanges` is the successful
"No changes detected" information message; `tokenMissing` is the
warning-and-return when auto-creation finds no configured
`issueTrackerToken`; `cancelledRun` is the quiet "Cancelled" message;
`failedRun` is the error message dialog; `doneRun` carries the final
commit message and the linked issue number, if any. -/
inductive Outcome where
  | noChanges
  | tokenMissing
  | cancelledRun
  | failedRun (msg : String)
  | doneRun (message : String) (linkedIssue : Option Nat)
deriving Repr, DecidableEq

/-- `n` backend calls. -/
def backendCalls (n : Nat) : List ExtCall := List.replicate n ExtCall.backendCall

/-- Per-run environment: configuration values, the diff produced by the
(out-of-scope) diff source, oracles for every external interaction, and
the cancellation flag.  The git-remote lookup and URL parse are black-box
external collaborators, modelled by their parsed result. -/
structure CommandEnv where
  hasSourceControl : Bool
  diff : String
  issueTracker : Option String
  autoCreateIssues : Bool
  includeIssueInCommit : Bool
  provider : Option String
  apiKey : Option String
  issueTrackerTokenCfg : Option String
  oauthSession : Option String
  remoteGitHub : Option (String × String)
  fetchResult : FetchOutcome
  gwRelevance : Gateway
  gwTemp : Gateway
  gwClassify : Gateway
  gwFinal : Gateway
  createResult : Option GitHubIssue
  cancelled : Bool
deriving Repr

/-- Step 2a of the command: when issue linking is enabled and a GitHub
remote was recognised, ask the matcher which open issue (if any) the diff
addresses.  A throw from `findRelevantIssue` escapes to the command's
catch, ending the run. -/
def relevanceStep (env : CommandEnv) (provider : String) (issues : List GitHubIssue)
    (calls : List ExtCall) :
    Except (Outcome × List ExtCall) (Option GitHubIssue × List ExtCall) :=
  if env.includeIssueInCommit ∧ env.remoteGitHub.isSome then
    if issues.isEmpty then Except.ok (none, calls)
    else
      match findRelevantIssueRun provider env.apiKey env.gwRelevance env.cancelled issues with
      | (Except.error GenError.cancelled, n) =>
        Except.error (Outcome.cancelledRun, calls ++ backendCalls n)
      | (Except.error e, n) =>
        Except.error (Outcome.failedRun e.message, calls ++ backendCalls n)
      | (Except.ok rel, n) =>
        let link := match rel with
          | some num => issues.find? (fun i => i.number == num)
          | none => none
        Except.ok (link, calls ++ backendCalls n)
  else Except.ok (none, calls)

/-- Step 2b of the command: when no issue was linked, auto-creation is
enabled and a GitHub remote was recognised, generate a provisional
message, classify the diff and create an issue.  A missing configured
`issueTrackerToken` warns and ends the run; every failure inside the
try block is caught and the run continues without a linked issue. -/
def createStep (env : CommandEnv) (provider : String) (issueToLink : Option GitHubIssue)
    (calls : List ExtCall) :
    Except (Outcome × List ExtCall) (Option GitHubIssue × List ExtCall) :=
  if env.includeIssueInCommit ∧ env.remoteGitHub.isSome then
    if issueToLink.isNone ∧ env.autoCreateIssues ∧ env.remoteGitHub.isSome then
      if ¬ jsTruthyStr env.issueTrackerTokenCfg then
        Except.error (Outcome.tokenMissing, calls)
      else
        match generateCommitMessageRun provider env.apiKey env.gwTemp env.cancelled with
        | (Except.error _, n) => Except.ok (none, calls ++ backendCalls n)
        | (Except.ok _, n1) =>
          match classifyIssueFromDiffRun provider env.apiKey env.gwClassify env.cancelled with
          | (Except.error _, n2) => Except.ok (none, calls ++ backendCalls (n1 + n2))
          | (Except.ok _, n2) =>
            if jsTruthyStr (resolveGitHubToken env.oauthSession none env.issueTrackerTokenCfg).1 then
              match env.createResult with
              | some newIssue =>
                Except.ok (some newIssue, calls ++ backendCalls (n1 + n2) ++ [ExtCall.repoCreateCall])
              | none =>
                Except.ok (none, calls ++ backendCalls (n1 + n2) ++ [ExtCall.repoCreateCall])
            else Except.ok (none, calls ++ backendCalls (n1 + n2))
    else Except.ok (issueToLink, calls)
  else Except.ok (issueToLink, calls)

/-- Step 3 of the command: the final generation call (the prompt sees at
most the single linked issue), with the deterministic issue-number
suffix appended when an issue is linked. -/
def finalStep (env : CommandEnv) (provider : String) (issueToLink : Option GitHubIssue)
    (calls : List ExtCall) : Outcome × List ExtCall :=
  match generateCommitMessageRun provider env.apiKey env.gwFinal env.cancelled with
  | (Except.error GenError.cancelled, n) => (Outcome.cancelledRun, calls ++ backendCalls n)
  | (Except.error e, n) => (Outcome.failedRun e.message, calls ++ backendCalls n)
  | (Except.ok msg, n) =>
    let message := match issueToLink with
      | some i => msg ++ "\n #" ++ toString i.number
      | none => msg
    (Outcome.doneRun message (issueToLink.map (fun i => i.number)), calls ++ backendCalls n)

/-- The `ai-commit-generator.generateCommitMessage` command handler
(extension.ts lines 707-893): early "No changes detected" exits, the
optional issue listing, relevance matching, auto-creation, and the final
generation, with the list of outward calls issued along the way. -/
def generateCommitCommand (env : CommandEnv) : Outcome × List ExtCall :=
  if ¬ env.hasSourceControl then (Outcome.noChanges, [])
  else if trimChars env.diff.data = [] then (Outcome.noChanges, [])
  else
    let provider := env.provider.getD "gemini"
    let doFetch := env.issueTracker = some "github" ∧ env.remoteGitHub.isSome
    let issues := if doFetch then fetchGitHubIssues env.fetchResult else []
    let calls1 : List ExtCall := if doFetch then [ExtCall.repoListCall] else []
    match relevanceStep env provider issues calls1 with
    | Except.error out => out
    | Except.ok (issueToLink, calls2) =>
      match createStep env provider issueToLink calls2 with
      | Except.error out => out
      | Except.ok (issueToLink2, calls3) => finalStep env provider issueToLink2 calls3

/- ------------------------------------------------------------------ -/
/- Spec-side comparison definitions.                                   -/
/- ------------------------------------------------------------------ -/

/-- Scan for the closing brace matching the opening brace that starts the
input, tracking nesting depth; returns the balanced span. -/
def balancedSpan : List Char → Nat → List Char → Option (List Char)
  | [], _, _ => none
  | c :: cs, depth, acc =>
    if c = '{' then balancedSpan cs (depth + 1) (c :: acc)
    else if c = '}' then
      if depth = 1 then some (c :: acc).reverse
      else balancedSpan cs (depth - 1) (c :: acc)
    else balancedSpan cs depth (c :: acc)

/-- Modelled from the spec: "Extract the first balanced \x7b...\x7d
substring" of the fence-stripped, trimmed text — the span from the first
opening brace to its matching closing brace.  Stated for comparison with
the source's `extractJson`. -/
def specFirstBalanced (text : String) : Option String :=
  let s := trimChars (stripFences text.data)
  match s.dropWhile (fun c => c ≠ '{') with
  | [] => none
  | l => (balancedSpan l 0 []).map String.mk

/-- Modelled from the spec (claim C10's reading of the matcher): the
base-10 integer formed by concatenating the digits of the response in
order, absent when the response has no digit. -/
def concatDigitsAux : List Char → Option Nat → Option Nat
  | [], acc => acc
  | c :: cs, acc =>
    concatDigitsAux cs
      (if c.isDigit then some ((acc.getD 0) * 10 + (c.toNat - 48)) else acc)

/-- The digit-concatenation value of a response string. -/
def specConcatDigits (s : String) : Option Nat :=
  concatDigitsAux s.data none

/-- Modelled from the spec: "collapse 3+ consecutive blank lines to one"
— the `/\n{3,}/g → '\n\n'` normalisation the spec ascribes to the
Gateway's output cleanup (present only in an earlier iteration of the
source, not in the shipped `cleanCommitMessage`). -/
def collapseBlankAux : Nat → List Char → List Char
  | 0, cs => cs
  | _ + 1, [] => []
  | fuel + 1, c :: rest =>
    if c = '\n' then
      let run := 1 + (rest.takeWhile (fun x => x = '\n')).length
      (if 3 ≤ run then ['\n', '\n'] else List.replicate run '\n') ++
        collapseBlankAux fuel (rest.dropWhile (fun x => x = '\n'))
    else c :: collapseBlankAux fuel rest

/-- String form of the spec's blank-line collapsing (fuel is sufficient:
each step consumes at least one character). -/
def specCollapseBlankLines (s : String) : String :=
  String.mk (collapseBlankAux s.data.length s.data)

/- ------------------------------------------------------------------ -/
/- Helper lemmas.                                                      -/
/- ------------------------------------------------------------------ -/

theorem concatDigitsAux_some (cs : List Char) : ∀ a : Nat,
    concatDigitsAux cs (some a) =
      some (cs.foldl (fun n c => if c.isDigit then n * 10 + (c.toNat - 48) else n) a) := by
  induction cs with
  | nil => intro a; rfl
  | cons c cs ih =>
    intro a
    by_cases h : c.isDigit
    · simp [concatDigitsAux, h, ih]
    · simp [concatDigitsAux, h, ih]

theorem foldl_digit_filter (cs : List Char) : ∀ a : Nat,
    cs.foldl (fun n c => if c.isDigit then n * 10 + (c.toNat - 48) else n) a =
      (cs.filter Char.isDigit).foldl (fun n c => n * 10 + (c.toNat - 48)) a := by
  induction cs with
  | nil => intro a; rfl
  | cons c cs ih => intro a; by_cases h : c.isDigit <;> simp [List.filter_cons, h, ih]

theorem concatDigits_eq_parseInt (cs : List Char) :
    concatDigitsAux cs none = parseIntBase10 (cs.filter Char.isDigit) := by
  induction cs with
  | nil => rfl
  | cons c cs ih =>
    by_cases h : c.isDigit
    · simp only [concatDigitsAux, h, if_pos, Option.getD_none, List.filter_cons,
        concatDigitsAux_some, foldl_digit_filter, parseIntBase10]
      simp [h, digitsVal]
    · simp only [concatDigitsAux, h, List.filter_cons]
      simpa [h] using ih

/- ------------------------------------------------------------------ -/
/- Claim theorems.                                                     -/
/- ------------------------------------------------------------------ -/

/-- C1: for every candidate issue list and every backend response string,
the relevance matcher's post-processing returns either no issue or the
number of an issue that is an element of the candidate list — never a
number absent from it. -/
theorem findRelevantIssue_no_hallucination (issues : List GitHubIssue) (resp : String) :
    findRelevantIssuePost issues resp = none ∨
      ∃ i ∈ issues, findRelevantIssuePost issues resp = some i.number := by
  by_cases h1 : resp.data.map Char.toUpper = ['N', 'O', 'N', 'E']
  · exact Or.inl (by simp [findRelevantIssuePost, h1])
  · rcases h2 : parseIntBase10 (resp.data.filter Char.isDigit) with _ | n
    · exact Or.inl (by simp [findRelevantIssuePost, h1, h2])
    · by_cases h3 : issues.any (fun i => i.number == n)
      · rcases List.any_eq_true.mp h3 with ⟨i, hi, hin⟩
        refine Or.inr ⟨i, hi, ?_⟩
        have hn : i.number = n := by simpa using hin
        simp [findRelevantIssuePost, h1, h2, h3, hn]
      · exact Or.inl (by simp [findRelevantIssuePost, h1, h2, h3])

/-- C10: for every response whose uppercase form is not the no-match
token, the candidate number compared against the list is the base-10
integer formed by concatenating the digits of the response in order (a
response with no digits yields no candidate). -/
theorem findRelevantIssue_digit_concat (issues : List GitHubIssue) (resp : String)
    (h : resp.data.map Char.toUpper ≠ ['N', 'O', 'N', 'E']) :
    findRelevantIssuePost issues resp =
      match specConcatDigits resp with
      | none => none
      | some n => if issues.any (fun i => i.number == n) then some n else none := by
  have key : specConcatDigits resp = parseIntBase10 (resp.data.filter Char.isDigit) :=
    concatDigits_eq_parseInt _
  rw [key]
  simp [findRelevantIssuePost, h]

/-- Witness for C10: the response "1 or 2" mentions two numbers; the
digit concatenation 12 is the candidate, and it matches issue 12. -/
theorem findRelevantIssue_digit_concat_witness :
    findRelevantIssuePost [{ number := 12, title := "t", body := "b" }] "1 or 2" =
      match specConcatDigits "1 or 2" with
      | none => none
      | some n =>
        if [({ number := 12, title := "t", body := "b" } : GitHubIssue)].any
            (fun i => i.number == n) then some n else none :=
  findRelevantIssue_digit_concat _ _ (by decide)

/-- C2: for every backend output string that is not valid structured data
— extraction finds no object, or the extracted text does not parse, or the
parsed value has no type field, or its labels field is not an array — the
classifier's parse stage returns exactly the chore/chore/0.0 fallback;
being a total function, it never raises. -/
theorem classify_fallback_on_malformed (text : String)
    (h : extractJson text = none
       ∨ (∃ j, extractJson text = some j ∧ jsonParse j = none)
       ∨ (∃ j p, extractJson text = some j ∧ jsonParse j = some p ∧
            (p.getField "type" = none ∨ ∀ ls, p.getField "labels" ≠ some (Json.arr ls)))) :
    classifyParse text = fallbackClassification := by
  rcases h with h | ⟨j, hj, hp⟩ | ⟨j, p, hj, hp, hv⟩
  · simp [classifyParse, h]
  · simp [classifyParse, hj, hp]
  · simp only [classifyParse, hj, hp]
    rcases hv with hty | hlab
    · rcases hl : labelsArr? (p.getField "labels") with _ | ls
      · simp [classifyFromParsed, hl]
      · simp [classifyFromParsed, hl, hty]
    · have hl : labelsArr? (p.getField "labels") = none := by
        rcases hg : p.getField "labels" with _ | v
        · rfl
        · cases v with
          | arr ls => exact absurd hg (hlab ls)
          | null => rfl
          | bool b => rfl
          | num n => rfl
          | str s => rfl
          | obj fs => rfl
      simp [classifyFromParsed, hl]

/-- Witness for C2: prose with no JSON object in it produces the
fallback classification. -/
theorem classify_fallback_on_malformed_witness :
    classifyParse "The diff looks routine." = fallbackClassification :=
  classify_fallback_on_malformed _ (Or.inl rfl)

/-- C8: when the parsed backend object passes validation (a truthy type
field and an array labels field), the returned confidence is the
backend-supplied number when one is supplied, and 0.5 when the field is
absent or not a number; the parse-fallback confidence is exactly 0.0. -/
theorem classify_confidence_policy (p ty : Json) (ls : List Json)
    (hty : p.getField "type" = some ty) (htr : ty.truthy = true)
    (hls : p.getField "labels" = some (Json.arr ls)) :
    ((∀ q, p.getField "confidence" = some (Json.num q) →
        (classifyFromParsed p).confidence = q)
     ∧ (numField? (p.getField "confidence") = none →
        (classifyFromParsed p).confidence = { mantissa := 5, exp10 := -1 }))
    ∧ fallbackClassification.confidence = { mantissa := 0, exp10 := 0 }
    ∧ JNum.toRat { mantissa := 5, exp10 := -1 } = 1 / 2
    ∧ JNum.toRat { mantissa := 0, exp10 := 0 } = 0 := by
  refine ⟨⟨?_, ?_⟩, rfl, by norm_num [JNum.toRat], by norm_num [JNum.toRat]⟩
  · intro q hq
    simp [classifyFromParsed, hls, hty, htr, labelsArr?, confidenceOf, numField?, hq]
  · intro hq
    simp [classifyFromParsed, hls, hty, htr, labelsArr?, confidenceOf, hq]

/-- Witness for C8: a parsed object supplying confidence 0.9 yields
exactly that confidence. -/
theorem classify_confidence_policy_witness :
    (classifyFromParsed (Json.obj [("type", Json.str "bug"), ("labels", Json.arr []),
        ("confidence", Json.num { mantissa := 9, exp10 := -1 })])).confidence =
      { mantissa := 9, exp10 := -1 } :=
  (classify_confidence_policy
      (Json.obj [("type", Json.str "bug"), ("labels", Json.arr []),
        ("confidence", Json.num { mantissa := 9, exp10 := -1 })])
      (Json.str "bug") [] rfl rfl rfl).1.1 _ rfl

/-- C3: with cancellation already requested, the classification function
still issues its backend call (the source accepts the token but never
consults it), while the message-generation and relevance functions
observe the token before calling and terminate in the cancelled error
with zero calls, for both backends. -/
theorem classify_calls_backend_despite_cancellation :
    (classifyIssueFromDiffRun "gemini" (some "key")
        { geminiText := "x", openaiOk := true, openaiStatus := 200, openaiErrBody := "",
          openaiContent := some "x", openaiJsonParses := true } true).2 = 1
    ∧ generateCommitMessageRun "gemini" (some "key")
        { geminiText := "x", openaiOk := true, openaiStatus := 200, openaiErrBody := "",
          openaiContent := some "x", openaiJsonParses := true } true =
        (Except.error GenError.cancelled, 0)
    ∧ generateCommitMessageRun "openai" (some "key")
        { geminiText := "x", openaiOk := true, openaiStatus := 200, openaiErrBody := "",
          openaiContent := some "x", openaiJsonParses := true } true =
        (Except.error GenError.cancelled, 0)
    ∧ findRelevantIssueRun "gemini" (some "key")
        { geminiText := "x", openaiOk := true, openaiStatus := 200, openaiErrBody := "",
          openaiContent := some "x", openaiJsonParses := true } true
        [{ number := 7, title := "t", body := "b" }] =
        (Except.error GenError.cancelled, 0)
    ∧ findRelevantIssueRun "openai" (some "key")
        { geminiText := "x", openaiOk := true, openaiStatus := 200, openaiErrBody := "",
          openaiContent := some "x", openaiJsonParses := true } true
        [{ number := 7, title := "t", body := "b" }] =
        (Except.error GenError.cancelled, 0) :=
  ⟨rfl, rfl, rfl, rfl, rfl⟩

/-- C4: for every run environment whose diff trims to nothing, the
command terminates in the successful "No changes detected" outcome with
no backend and no issue-repository calls. -/
theorem emptyDiff_nothing_to_do (env : CommandEnv) (h : trimChars env.diff.data = []) :
    generateCommitCommand env = (Outcome.noChanges, []) := by
  unfold generateCommitCommand
  by_cases hsc : env.hasSourceControl
  · simp [hsc, h]
  · simp [hsc]

/-- Witness for C4: a whitespace-only diff in an otherwise fully
configured environment. -/
theorem emptyDiff_nothing_to_do_witness :
    generateCommitCommand
      { hasSourceControl := true, diff := "  \n \t", issueTracker := some "github",
        autoCreateIssues := true, includeIssueInCommit := true, provider := some "gemini",
        apiKey := some "k", issueTrackerTokenCfg := some "t", oauthSession := none,
        remoteGitHub := some ("owner", "repo"),
        fetchResult := FetchOutcome.httpResponse true 200 (some []),
        gwRelevance := ⟨"NONE", true, 200, "", some "NONE", true⟩,
        gwTemp := ⟨"m", true, 200, "", some "m", true⟩,
        gwClassify := ⟨"m", true, 200, "", some "m", true⟩,
        gwFinal := ⟨"m", true, 200, "", some "m", true⟩,
        createResult := none, cancelled := false } = (Outcome.noChanges, []) :=
  emptyDiff_nothing_to_do _ (by decide)

/-- C5: listing open issues returns the empty list (not an error) on any
transport failure or non-success HTTP status, and every issue it does
return comes from a non-pull-request entry of a successful response
body. -/
theorem fetchIssues_soft_fail_excludes_prs (fo : FetchOutcome) :
    ((fo = FetchOutcome.transportError → fetchGitHubIssues fo = [])
     ∧ (∀ st b, fo = FetchOutcome.httpResponse false st b → fetchGitHubIssues fo = []))
    ∧ (∀ iss ∈ fetchGitHubIssues fo, ∃ ok st body raw,
        fo = FetchOutcome.httpResponse ok st (some body) ∧ raw ∈ body ∧
        raw.pull_request = false ∧
        iss = { number := raw.number, title := raw.title, body := raw.body.getD "" }) := by
  refine ⟨⟨?_, ?_⟩, ?_⟩
  · rintro rfl; rfl
  · rintro st b rfl; rfl
  · intro iss hmem
    cases fo with
    | transportError => simp [fetchGitHubIssues] at hmem
    | httpResponse ok st body =>
      cases ok with
      | false => simp [fetchGitHubIssues] at hmem
      | true =>
        cases body with
        | none => simp [fetchGitHubIssues] at hmem
        | some issues =>
          simp [fetchGitHubIssues, List.mem_filter] at hmem
          rcases hmem with ⟨raw, ⟨hr, hpr⟩, heq⟩
          exact ⟨true, st, issues, raw, rfl, hr, by simpa using hpr, heq.symm⟩

/-- Witness for C5: a transport failure yields the empty list. -/
theorem fetchIssues_soft_fail_excludes_prs_witness :
    fetchGitHubIssues FetchOutcome.transportError = [] :=
  (fetchIssues_soft_fail_excludes_prs FetchOutcome.transportError).1.1 rfl

theorem span_decomp (t u : List Char)
    (hu : u = ((t.dropWhile (fun c => c ≠ '{')).reverse.dropWhile (fun c => c ≠ '}')).reverse)
    (hne : u ≠ []) :
    ∃ pre post, t = pre ++ u ++ post ∧ (∀ c ∈ pre, c ≠ '{') ∧ (∀ c ∈ post, c ≠ '}') ∧
      u.head? = some '{' ∧ u.getLast? = some '}' := by
  have key : t.dropWhile (fun c => c ≠ '{') =
      u ++ ((t.dropWhile (fun c => c ≠ '{')).reverse.takeWhile (fun c => c ≠ '}')).reverse := by
    rw [hu]
    conv_lhs => rw [← List.reverse_reverse (t.dropWhile (fun c => c ≠ '{')),
      ← List.takeWhile_append_dropWhile (fun c => (c ≠ '}' : Bool))
        (t.dropWhile (fun c => c ≠ '{')).reverse]
    rw [List.reverse_append]
  refine ⟨t.takeWhile (fun c => c ≠ '{'),
          ((t.dropWhile (fun c => c ≠ '{')).reverse.takeWhile (fun c => c ≠ '}')).reverse,
          ?_, ?_, ?_, ?_, ?_⟩
  · conv_lhs => rw [← List.takeWhile_append_dropWhile (fun c => (c ≠ '{' : Bool)) t, key]
    rw [List.append_assoc]
  · intro c hc
    have := List.mem_takeWhile_imp hc
    simpa using this
  · intro c hc
    rw [List.mem_reverse] at hc
    have := List.mem_takeWhile_imp hc
    simpa using this
  · obtain ⟨c, u', rfl⟩ := List.exists_cons_of_ne_nil hne
    have h1 : (t.dropWhile (fun x => x ≠ '{')).head? = some c := by rw [key]; rfl
    have h2 := List.head?_dropWhile_not (fun x => (x ≠ '{' : Bool)) t
    rw [h1] at h2
    simp at h2
    simp [h2]
  · have hrev : u.reverse = (t.dropWhile (fun x => x ≠ '{')).reverse.dropWhile
        (fun x => x ≠ '}') := by
      rw [hu, List.reverse_reverse]
    have hne2 : u.reverse ≠ [] := by simpa using hne
    obtain ⟨d, v, hdv⟩ := List.exists_cons_of_ne_nil hne2
    have h1 : ((t.dropWhile (fun x => x ≠ '{')).reverse.dropWhile
        (fun x => x ≠ '}')).head? = some d := by
      rw [← hrev, hdv]; rfl
    have h2 := List.head?_dropWhile_not (fun x => (x ≠ '}' : Bool))
      (t.dropWhile (fun x => x ≠ '{')).reverse
    rw [h1] at h2
    simp at h2
    rw [← List.head?_reverse, hdv]
    simp [h2]

/-- Counterexample for C6: on text holding two JSON objects, the source's
greedy extraction returns the whole span from the first opening to the
last closing brace, not the first balanced object the claim describes. -/
theorem extractJson_not_first_balanced :
    extractJson "\x7b\"a\": 1\x7d and \x7b\"b\": 2\x7d" =
      some "\x7b\"a\": 1\x7d and \x7b\"b\": 2\x7d"
    ∧ specFirstBalanced "\x7b\"a\": 1\x7d and \x7b\"b\": 2\x7d" = some "\x7b\"a\": 1\x7d"
    ∧ extractJson "\x7b\"a\": 1\x7d and \x7b\"b\": 2\x7d" ≠
        specFirstBalanced "\x7b\"a\": 1\x7d and \x7b\"b\": 2\x7d" :=
  ⟨rfl, rfl, by decide⟩

/-- C6 (amended): the classifier's JSON extraction first strips fence
markers and trims, then takes the substring spanning from the first
opening brace of the remaining text to the last closing brace (the greedy
regex match, not the first balanced object); when no such span exists,
extraction fails and the fallback classification results; and fenced
output with surrounding commentary around a single embedded object is
still extracted and classified correctly. -/
theorem extractJson_greedy_span :
    (∀ text s, extractJson text = some s →
       ∃ pre post, trimChars (stripFences text.data) = pre ++ s.data ++ post ∧
         (∀ c ∈ pre, c ≠ '{') ∧ (∀ c ∈ post, c ≠ '}') ∧
         s.data.head? = some '{' ∧ s.data.getLast? = some '}')
    ∧ (∀ text, extractJson text = none → classifyParse text = fallbackClassification)
    ∧ classifyParse "Sure! Here is the JSON:\n```json\n\x7b \"type\": \"bug\", \"labels\": [\"bug\"], \"confidence\": 0.9 \x7d\n```\nLet me know." =
        { type := Json.str "bug", labels := [Json.str "bug"],
          confidence := { mantissa := 9, exp10 := -1 } } := by
  refine ⟨?_, ?_, rfl⟩
  · intro text s hx
    simp only [extractJson] at hx
    split at hx
    · exact Option.noConfusion hx
    · next hne =>
      rw [Option.some.injEq] at hx
      subst hx
      exact span_decomp (trimChars (stripFences text.data)) _ rfl (by simpa using hne)
  · intro text hx
    simp [classifyParse, hx]

/-- Witness for C6: a concrete extraction, decomposed as the theorem
states. -/
theorem extractJson_greedy_span_witness :
    ∃ pre post,
      trimChars (stripFences ("x\x7by\x7dz" : String).data) =
        pre ++ ("\x7by\x7d" : String).data ++ post ∧
      (∀ c ∈ pre, c ≠ '{') ∧ (∀ c ∈ post, c ≠ '}') ∧
      ("\x7by\x7d" : String).data.head? = some '{' ∧
      ("\x7by\x7d" : String).data.getLast? = some '}' :=
  extractJson_greedy_span.1 "x\x7by\x7dz" "\x7by\x7d" rfl

/-- Counterexample for C7: a message with three consecutive blank lines
passes through the source's cleanup unchanged — the blank-line collapsing
the claim describes is absent from the shipped function. -/
theorem cleanCommitMessage_no_collapse :
    cleanCommitMessage "a\n\n\n\nb" = "a\n\n\n\nb"
    ∧ specCollapseBlankLines "a\n\n\n\nb" = "a\n\nb"
    ∧ cleanCommitMessage "a\n\n\n\nb" ≠ specCollapseBlankLines "a\n\n\n\nb" :=
  ⟨rfl, rfl, by decide⟩

/-- C7 (amended): the output cleanup is a pure function of the backend
text that strips a leading fenced-code marker line and a trailing fence
at the end of the string and trims surrounding whitespace — but performs
no blank-line collapsing — and the very same function is applied to the
successful output of both backend variants. -/
theorem cleanCommitMessage_backend_independent :
    (∀ (gw : Gateway) (key : Option String), jsTruthyStr key = true →
      (generateCommitMessageRun "gemini" key gw false).1 =
        Except.ok (cleanCommitMessage gw.geminiText)
      ∧ (∀ c, gw.openaiContent = some c → c ≠ "" → gw.openaiOk = true →
          (generateCommitMessageRun "openai" key gw false).1 =
            Except.ok (cleanCommitMessage c)))
    ∧ cleanCommitMessage "```\nfeat: x\n```" = "feat: x"
    ∧ cleanCommitMessage "  feat: y\n\ndetails  \n" = "feat: y\n\ndetails"
    ∧ cleanCommitMessage "a\n\n\n\nb" = "a\n\n\n\nb" := by
  refine ⟨?_, rfl, rfl, rfl⟩
  intro gw key hkey
  constructor
  · simp [generateCommitMessageRun, hkey]
  · intro c hc hcne hok
    simp [generateCommitMessageRun, hkey, hc, hcne, hok]

/-- Witness for C7: with an API key configured, the Gemini branch's
successful result is the cleanup applied to the raw backend text. -/
theorem cleanCommitMessage_backend_independent_witness :
    (generateCommitMessageRun "gemini" (some "k")
        ⟨"```\nfeat: z\n```", true, 200, "", some "o", true⟩ false).1 =
      Except.ok (cleanCommitMessage "```\nfeat: z\n```") :=
  (cleanCommitMessage_backend_independent.1
    ⟨"```\nfeat: z\n```", true, 200, "", some "o", true⟩ (some "k") rfl).1

/-- C9: the credential resolver first asks for an existing session
without prompting (never triggering interactive sign-in), falls back to
the statically configured token when the session yields nothing truthy,
and returns absent — not an error — when neither source yields a token. -/
theorem resolveToken_order_policy (sess interactive configTok : Option String) :
    ((resolveGitHubToken sess interactive configTok).2 = false)
    ∧ (∀ t, sess = some t → t ≠ "" →
        (resolveGitHubToken sess interactive configTok).1 = some t)
    ∧ (jsTruthyStr (getGitHubAccessToken false sess interactive).1 = false →
        (resolveGitHubToken sess interactive configTok).1 = configTok)
    ∧ (sess = none → configTok = none →
        (resolveGitHubToken sess interactive configTok).1 = none) := by
  refine ⟨?_, ?_, ?_, ?_⟩
  · cases sess with
    | none => simp [resolveGitHubToken, getGitHubAccessToken, jsTruthyStr]
    | some t =>
      by_cases ht : t = "" <;>
        simp [resolveGitHubToken, getGitHubAccessToken, jsTruthyStr, ht]
  · intro t ht htne
    subst ht
    simp [resolveGitHubToken, getGitHubAccessToken, jsTruthyStr, htne]
  · intro h
    simp [resolveGitHubToken, h]
  · intro hs hc
    subst hs; subst hc
    simp [resolveGitHubToken, getGitHubAccessToken, jsTruthyStr]

/-- Witness for C9: an existing non-empty session token wins. -/
theorem resolveToken_order_policy_witness :
    (resolveGitHubToken (some "oauth-token") none (some "config-token")).1 =
      some "oauth-token" :=
  (resolveToken_order_policy (some "oauth-token") none (some "config-token")).2.1
    "oauth-token" rfl (by decide)
